import Mathlib

/-!
Verification development for the namoz prayer-times bot.

The definitions below are a shallow embedding of the Python source:

* `src/scraping/prayer_times.py` — `get_next_prayer`, `save_monthly_prayer_times`,
  `scrape_prayer_times` (its tenacity retry wrapper and exception handlers);
* `src/database/database.py` — the `prayer_times` table with
  `PRIMARY KEY (region, date)`, `INSERT OR REPLACE` upserts, `compute_content_hash`;
* `src/bot/utils/reminders.py` — the `_update_message_task` refresh tick:
  countdown arithmetic, the reminder-trigger condition, the global `reminders`
  dictionary, the closest-prayer highlight and the rendered message text;
* `src/bot/handlers/callbacks.py` — `toggle_prayer_callback` and the
  reminder-settings keyboard.

Python strings are embedded as `String`; Python's lexicographic string
comparison is embedded as the structural comparator `charListLt` on the
underlying character lists (identical to CPython's code-point comparison for
the "HH:MM" and "N/A" values that occur here).  Clock instants are embedded at
second resolution as seconds-of-day (`Nat`), matching the source's use of
`datetime` values whose sub-second part plays no role in the compared claims.
-/

/-- Lexicographic comparison of character lists by code point: the embedding of
CPython's `str.__lt__` for the ASCII data handled by the bot. -/
def charListLt : List Char → List Char → Bool
  | [], [] => false
  | [], _ :: _ => true
  | _ :: _, [] => false
  | a :: as, b :: bs => if a < b then true else if b < a then false else charListLt as bs

/-- Python `a < b` on strings. -/
def strLtB (a b : String) : Bool := charListLt a.data b.data

/-- Python `a <= b` on strings (total order: not `b < a`). -/
def strLeB (a b : String) : Bool := !(strLtB b a)

theorem charListLt_conn : ∀ as bs, charListLt as bs = false → charListLt bs as = false → as = bs
  | [], [], _, _ => rfl
  | [], _ :: _, h, _ => by simp [charListLt] at h
  | _ :: _, [], _, h => by simp [charListLt] at h
  | a :: as, b :: bs, h, h' => by
    by_cases hab : a < b
    · simp [charListLt, hab] at h
    · by_cases hba : b < a
      · simp [charListLt, hba, hab] at h'
      · have : a = b := le_antisymm (not_lt.mp hba) (not_lt.mp hab)
        subst this
        simp [charListLt, hab] at h h'
        rw [charListLt_conn as bs h h']

theorem charListLt_trans : ∀ as bs cs, charListLt as bs = true → charListLt bs cs = true →
    charListLt as cs = true
  | _, [], [], _, h2 => by simp [charListLt] at h2
  | [], _ :: _, _ :: _, _, _ => by simp [charListLt]
  | _ :: _, [], _ :: _, h1, _ => by simp [charListLt] at h1
  | a :: as, b :: bs, c :: cs, h1, h2 => by
    by_cases hab : a < b <;> by_cases hbc : b < c
    · have hac : a < c := lt_trans hab hbc
      simp [charListLt, hac]
    · by_cases hcb : c < b
      · simp [charListLt, hbc, hcb] at h2
      · have : b = c := le_antisymm (not_lt.mp hcb) (not_lt.mp hbc)
        subst this
        simp [charListLt, hab]
    · by_cases hba : b < a
      · simp [charListLt, hab, hba] at h1
      · have : a = b := le_antisymm (not_lt.mp hba) (not_lt.mp hab)
        subst this
        simp [charListLt, hbc]
    · by_cases hba : b < a
      · simp [charListLt, hab, hba] at h1
      · by_cases hcb : c < b
        · simp [charListLt, hbc, hcb] at h2
        · have e1 : a = b := le_antisymm (not_lt.mp hba) (not_lt.mp hab)
          subst e1
          have e2 : a = c := le_antisymm (not_lt.mp hcb) (not_lt.mp hbc)
          subst e2
          simp [charListLt, hab] at h1 h2 ⊢
          exact charListLt_trans as bs cs h1 h2

theorem charListLt_asymm : ∀ as bs, charListLt as bs = true → charListLt bs as = false
  | [], [], h => by simp [charListLt] at h
  | [], _ :: _, _ => by simp [charListLt]
  | _ :: _, [], h => by simp [charListLt] at h
  | a :: as, b :: bs, h => by
    by_cases hab : a < b
    · have : ¬ b < a := lt_asymm hab
      simp [charListLt, this, hab]
    · by_cases hba : b < a
      · simp [charListLt, hab, hba] at h
      · have : a = b := le_antisymm (not_lt.mp hba) (not_lt.mp hab)
        subst this
        simp [charListLt, hab] at h ⊢
        exact charListLt_asymm as bs h

theorem strLtB_conn (a b : String) (h : strLtB a b = false) (h' : strLtB b a = false) : a = b :=
  String.ext (charListLt_conn a.data b.data h h')

theorem strLtB_trans (a b c : String) (h1 : strLtB a b = true) (h2 : strLtB b c = true) :
    strLtB a c = true :=
  charListLt_trans a.data b.data c.data h1 h2

theorem strLtB_asymm (a b : String) (h : strLtB a b = true) : strLtB b a = false :=
  charListLt_asymm a.data b.data h

theorem strLeB_trans (a b c : String) (h1 : strLeB a b = true) (h2 : strLeB b c = true) :
    strLeB a c = true := by
  unfold strLeB at h1 h2 ⊢
  simp only [Bool.not_eq_true'] at h1 h2 ⊢
  by_cases hca : strLtB c a = true
  · by_cases hab : strLtB a b = true
    · have hcb := strLtB_trans c a b hca hab
      rw [hcb] at h2
      exact absurd h2 (by simp)
    · have eab : a = b := strLtB_conn a b (by simpa using hab) h1
      subst eab
      rw [hca] at h2
      exact absurd h2 (by simp)
  · simpa using hca

theorem strLeB_total (a b : String) : strLeB a b = true ∨ strLeB b a = true := by
  unfold strLeB
  by_cases h : strLtB a b = true
  · left
    simp [strLtB_asymm a b h]
  · right
    simp only [Bool.not_eq_true] at h
    simp [h]

/-- Python's `f"{n:02d}"` zero-padding for the two-digit fields used in dates
and countdowns. -/
def pad2 (n : Nat) : String := if n < 10 then "0" ++ toString n else toString n

/-! ## Cache Store (`src/database/database.py`, `src/scraping/prayer_times.py`)

The `prayer_times` table has `PRIMARY KEY (region, date)` and is written only
through `INSERT OR REPLACE` (`save_monthly_prayer_times`).  A table is embedded
as an association list from the key `(region, date)` to the serialized
`times` payload; `INSERT OR REPLACE` deletes any row with the same primary key
and inserts the new one. -/

/-- One `prayer_times` table: rows `((region, date), times_json)`. -/
def PTTable := List ((String × String) × String)

/-- SQLite `INSERT OR REPLACE INTO prayer_times (region, date, times) VALUES (?, ?, ?)`:
any existing row with the same `(region, date)` primary key is replaced. -/
def upsertPT (k : String × String) (v : String) (t : PTTable) : PTTable :=
  (k, v) :: t.filter (fun r => decide (r.1 ≠ k))

/-- `SELECT times FROM prayer_times WHERE region = ? AND date = ?` with `fetchone`
(the embedding of the read inside `fetch_cached_prayer_times`). -/
def lookupPT (k : String × String) (t : PTTable) : Option String :=
  (t.find? (fun r => decide (r.1 = k))).map (fun r => r.2)

theorem upsertPT_idem (k : String × String) (v : String) (t : PTTable) :
    upsertPT k v (upsertPT k v t) = upsertPT k v t := by
  unfold upsertPT
  simp only [List.filter_cons, decide_not, List.filter_filter]
  simp

theorem upsertPT_count (k : String × String) (v : String) (t : PTTable) :
    (upsertPT k v t).countP (fun r => decide (r.1 = k)) = 1 := by
  unfold upsertPT
  rw [List.countP_cons]
  simp only [decide_eq_true_eq]
  have hz : (t.filter (fun r => decide (r.1 ≠ k))).countP (fun r => decide (r.1 = k)) = 0 := by
    rw [List.countP_eq_zero]
    intro r hr
    rcases List.mem_filter.mp hr with ⟨_, hne⟩
    simp only [decide_eq_true_eq] at hne ⊢
    exact hne
  simp [hz]

theorem lookupPT_upsert (k : String × String) (v : String) (t : PTTable) :
    lookupPT k (upsertPT k v t) = some v := by
  unfold lookupPT upsertPT
  simp [List.find?_cons]

/-- C9: the cache upsert is idempotent and keeps exactly one row per
`(region, date)`: repeating the upsert with the identical payload leaves the
table literally unchanged; re-ingesting a different payload for the same key
overwrites the row (last-write-wins, the new payload is what a read returns)
and still leaves exactly one row for that key. -/
theorem c9_upsert_idempotent_single_row (t : PTTable) (k : String × String) (v v' : String) :
    upsertPT k v (upsertPT k v t) = upsertPT k v t ∧
    (upsertPT k v t).countP (fun r => decide (r.1 = k)) = 1 ∧
    lookupPT k (upsertPT k v' (upsertPT k v t)) = some v' ∧
    (upsertPT k v' (upsertPT k v t)).countP (fun r => decide (r.1 = k)) = 1 :=
  ⟨upsertPT_idem k v t, upsertPT_count k v t, lookupPT_upsert k v' (upsertPT k v t),
    upsertPT_count k v' (upsertPT k v t)⟩

/-! ## Countdown arithmetic (`_update_message_task`, `send_main_message`)

The source parses the next prayer's "HH:MM" time, plants it into today's date
with `second=0`, adds one day when the resulting instant is strictly before
`now` (`if next_time < now: next_time += timedelta(days=1)`), and formats
`divmod(time_until.seconds, 3600)` / `divmod(remainder, 60)` as
`f"{hours}:{minutes:02d}"`.  `now` is embedded as seconds-of-day and the
target as minutes-of-day. -/

/-- Seconds from `now` (seconds-of-day) until the target clock time (minutes-of-day),
with the source's strict `next_time < now` next-day adjustment. -/
def timeUntil (nowSec : Nat) (targetMin : Nat) : Nat :=
  (if targetMin * 60 < nowSec then targetMin * 60 + 86400 else targetMin * 60) - nowSec

/-- The countdown string `f"{hours}:{minutes:02d}"` computed by the refresh tick. -/
def countdownStr (nowSec : Nat) (targetMin : Nat) : String :=
  toString (timeUntil nowSec targetMin / 3600) ++ ":" ++
    pad2 ((timeUntil nowSec targetMin % 3600) / 60)

/-- Modelled from the spec's words, for comparison with `countdownStr`:
"if `targetClockTime <= now's clock time`, the target is interpreted as
tomorrow (add 24h) before differencing; result is floor-truncated to minutes,
formatted `H:MM`".  The only difference from the source is `≤` versus the
source's strict `<`. -/
def countdownStr_spec (nowSec : Nat) (targetMin : Nat) : String :=
  toString (((if targetMin * 60 ≤ nowSec then targetMin * 60 + 86400 else targetMin * 60)
      - nowSec) / 3600) ++ ":" ++
    pad2 ((((if targetMin * 60 ≤ nowSec then targetMin * 60 + 86400 else targetMin * 60)
      - nowSec) % 3600) / 60)

/-- C5 counterexample: at `now = 20:00:00` exactly and target `20:00`, the source
does not add 24 hours (its test is strict `<`), so the countdown is `"0:00"`,
while the claim's `≤` rule would produce `"24:00"`. -/
theorem c5_counterexample :
    countdownStr 72000 1200 = "0:00" ∧
    countdownStr_spec 72000 1200 = "24:00" ∧
    countdownStr 72000 1200 ≠ countdownStr_spec 72000 1200 := by
  refine ⟨rfl, rfl, ?_⟩
  decide

/-- C5 (amended): the 24-hour wrap happens only when the target is strictly
before `now` (at equality the countdown is `"0:00"`, not `"24:00"`); with that
amendment the countdown is exactly the forward modular distance from `now` to
the target clock time, floor-truncated to whole minutes and formatted `H:MM`
with no leading zero on hours and two-digit minutes. -/
theorem c5_countdown_modular (nowSec targetMin : Nat)
    (h1 : nowSec < 86400) (h2 : targetMin < 1440) :
    countdownStr nowSec targetMin =
      toString ((((targetMin * 60 + 86400) - nowSec) % 86400) / 3600) ++ ":" ++
        pad2 (((((targetMin * 60 + 86400) - nowSec) % 86400) % 3600) / 60) := by
  have key : timeUntil nowSec targetMin = ((targetMin * 60 + 86400) - nowSec) % 86400 := by
    unfold timeUntil
    by_cases h : targetMin * 60 < nowSec
    · rw [if_pos h]
      omega
    · rw [if_neg h]
      omega
  unfold countdownStr
  rw [key]

/-- C5 witness: the claim's own example `now = 20:00`, `target = 05:30`
evaluates through the amended theorem to `"9:30"`. -/
theorem c5_countdown_modular_witness :
    (72000 : Nat) < 86400 ∧ (330 : Nat) < 1440 ∧ countdownStr 72000 330 = "9:30" := by
  refine ⟨by decide, by decide, ?_⟩
  rw [c5_countdown_modular 72000 330 (by decide) (by decide)]
  rfl

/-! ## The `reminders` dictionary and the reminder trigger

`reminders` (`src/bot/utils/reminders.py` line 29) is a process-wide dict
`prayer → {chat_id: True}`.  It is embedded as the list of `(prayer, chat_id)`
pairs present.  Three places touch it:

* the refresh tick fires a reminder when
  `minutes == 5 and seconds == 0 and chat_id not in reminders.get(next_prayer, {})`
  and then runs `reminders.setdefault(next_prayer, {}).update({chat_id: True})`;
* `toggle_prayer_callback` removes the pair when present, inserts it otherwise;
* the settings keyboard shows `'🔔' if chat_id not in reminders.get(prayer, {}) else '🔕'`.

No date value is stored or consulted anywhere. -/

/-- Python `chat_id in reminders.get(prayer, {})`. -/
def remMem (r : List (String × Nat)) (prayer : String) (chat : Nat) : Bool :=
  decide ((prayer, chat) ∈ r)

/-- Python `reminders.setdefault(prayer, {}).update({chat_id: True})` (the
has-fired mark written by the tick; dict-key semantics, so inserting an
existing pair is a no-op). -/
def remMark (r : List (String × Nat)) (prayer : String) (chat : Nat) : List (String × Nat) :=
  if (prayer, chat) ∈ r then r else (prayer, chat) :: r

/-- `toggle_prayer_callback`: pop the chat from `reminders[prayer]` when present
(re-enabling the reminder), insert it otherwise (disabling it). -/
def toggle_prayer (r : List (String × Nat)) (prayer : String) (chat : Nat) :
    List (String × Nat) :=
  if (prayer, chat) ∈ r then r.filter (fun pc => decide (pc ≠ (prayer, chat)))
  else (prayer, chat) :: r

/-- The bell symbol rendered by the reminder-settings keyboard
(`reminders_callback`). -/
def reminderBell (r : List (String × Nat)) (prayer : String) (chat : Nat) : String :=
  if (prayer, chat) ∈ r then "🔕" else "🔔"

/-- The tick's reminder condition on the remaining seconds `dt`:
`minutes == 5 and seconds == 0 and chat_id not in reminders.get(next_prayer, {})`
where `hours, remainder = divmod(time_until.seconds, 3600)` and
`minutes, seconds = divmod(remainder, 60)`. -/
def reminderTriggered (r : List (String × Nat)) (nextPrayer : String) (chat : Nat)
    (dt : Nat) : Bool :=
  decide ((dt % 3600) / 60 = 5) && decide (dt % 60 = 0) && !(remMem r nextPrayer chat)

/-- C3: the has-fired mark is right as specified about suppression inside one
date, but the source's mark carries no date at all.  After the mark is written
(reminder fired once), the trigger condition is false at every later window
crossing — including crossings on later calendar dates, which the claim says
must fire again.  `dt = 300` is a remaining time inside the firing condition
(`minutes == 5`, `seconds == 0`). -/
theorem c3_reminder_mark_never_expires :
    remMem (remMark [] "Shom" 1) "Shom" 1 = true ∧
    reminderTriggered (remMark [] "Shom" 1) "Shom" 1 300 = false ∧
    reminderTriggered [] "Shom" 1 300 = true := by
  decide

/-- C4 counterexample: with an empty `reminders` state (nothing fired, nothing
disabled), a tick at `now = 11:55:01` with next prayer at `12:00` has 299
seconds remaining — inside the claimed 240–305 second window — yet the source
does not fire (its condition demands `minutes == 5 and seconds == 0` exactly);
conversely at 3900 seconds remaining (1h05m, far outside any pre-prayer
window) the source does fire. -/
theorem c4_counterexample :
    (240 ≤ timeUntil 42901 720 ∧ timeUntil 42901 720 ≤ 305) ∧
    remMem [] "Shom" 1 = false ∧
    reminderTriggered [] "Shom" 1 (timeUntil 42901 720) = false ∧
    reminderTriggered [] "Shom" 1 3900 = true ∧
    ¬ (240 ≤ (3900 : Nat) ∧ (3900 : Nat) ≤ 305) := by
  refine ⟨by decide, rfl, by decide, by decide, by decide⟩

/-- C4 (amended): on a refresh tick with a known next prayer the reminder fires
exactly when the remaining time `dt` satisfies `dt % 3600 = 300` — the
`minutes == 5 and seconds == 0` point condition, which recurs at 5 minutes,
1h05m, 2h05m, … remaining and is not a 240–305 second window — and the chat is
absent from `reminders[next_prayer]` (the single membership test that encodes
both "not yet fired" and "not disabled"). -/
theorem c4_point_condition (r : List (String × Nat)) (p : String) (chat : Nat) (dt : Nat) :
    reminderTriggered r p chat dt = (decide (dt % 3600 = 300) && !(remMem r p chat)) := by
  have h : (decide ((dt % 3600) / 60 = 5) && decide (dt % 60 = 0)) =
      decide (dt % 3600 = 300) := by
    rw [← Bool.decide_and]
    exact decide_eq_decide.mpr (by omega)
  unfold reminderTriggered
  rw [h]

/-- C10: the process-wide `reminders` mapping is simultaneously the
"disabled" toggle and the "already fired" mark, with no date qualifier:
firing inserts the `(prayer, chat)` pair, after which the trigger condition is
false for every later remaining-time value (there is no date in the state at
all), the settings keyboard renders the muted bell, and only the toggle
callback removes the pair again; the toggle flips membership both ways. -/
theorem c10_reminders_dual_use (r : List (String × Nat)) (prayer : String) (chat : Nat)
    (dt : Nat) :
    (reminderTriggered r prayer chat dt = true → remMem r prayer chat = false) ∧
    remMem (remMark r prayer chat) prayer chat = true ∧
    (∀ dt2, reminderTriggered (remMark r prayer chat) prayer chat dt2 = false) ∧
    reminderBell (remMark r prayer chat) prayer chat = "🔕" ∧
    remMem (toggle_prayer r prayer chat) prayer chat = !(remMem r prayer chat) ∧
    remMem (toggle_prayer (remMark r prayer chat) prayer chat) prayer chat = false := by
  have hmark : remMem (remMark r prayer chat) prayer chat = true := by
    by_cases hm : (prayer, chat) ∈ r
    · unfold remMem remMark
      rw [if_pos hm]
      exact decide_eq_true hm
    · unfold remMem remMark
      rw [if_neg hm]
      simp
  have hmarkMem : (prayer, chat) ∈ remMark r prayer chat := by
    have h := hmark
    unfold remMem at h
    exact of_decide_eq_true h
  refine ⟨?_, hmark, ?_, ?_, ?_, ?_⟩
  · intro h
    unfold reminderTriggered at h
    simp only [Bool.and_eq_true, Bool.not_eq_true'] at h
    exact h.2
  · intro dt2
    unfold reminderTriggered
    rw [hmark]
    simp
  · unfold reminderBell
    rw [if_pos hmarkMem]
  · unfold toggle_prayer remMem
    by_cases hm : (prayer, chat) ∈ r
    · rw [if_pos hm]
      simp [List.mem_filter, hm]
    · rw [if_neg hm]
      simp [hm]
  · unfold toggle_prayer remMem
    rw [if_pos hmarkMem]
    simp [List.mem_filter]

/-- C10 witness: with the empty initial state, chat 1 and prayer "Shom": the
trigger's hypothesis holds at `dt = 300`, giving `chat ∉ reminders`, and after
the mark the chat is recorded. -/
theorem c10_reminders_dual_use_witness :
    remMem ([] : List (String × Nat)) "Shom" 1 = false ∧
    remMem (remMark [] "Shom" 1) "Shom" 1 = true :=
  ⟨(c10_reminders_dual_use [] "Shom" 1 300).1 (by decide),
    (c10_reminders_dual_use [] "Shom" 1 300).2.1⟩

/-! ## Next-Prayer Resolver (`get_next_prayer`, `src/scraping/prayer_times.py`)

The first loop scans `prayer_times['prayer_times'].items()` keeping the first
strictly-smallest time that is known (`!= 'N/A'`) and strictly greater than
`current_time` (Python string comparison).  When no candidate is found the
source fetches tomorrow's cached schedule (embedded here as the `tomorrow`
parameter: `none` models a cache miss) and takes the first known entry of
`sorted(items, key=lambda x: x[1])`; if still nothing, it returns
`("N/A", "N/A")`. -/

/-- Python `time_str != 'N/A' and time_str > current_time` for one schedule entry. -/
def isCandidateB (now : String) (pt : String × String) : Bool :=
  decide (pt.2 ≠ "N/A") && strLtB now pt.2

/-- One iteration of the scan loop: keep the entry with the strictly smaller
time (`if next_prayer is None or time_str < next_prayer_time`). -/
def scanStep (now : String) (acc : Option (String × String)) (pt : String × String) :
    Option (String × String) :=
  if isCandidateB now pt then
    match acc with
    | none => some pt
    | some best => if strLtB pt.2 best.2 then some pt else some best
  else acc

/-- The whole first loop of `get_next_prayer`. -/
def scanNext (sched : List (String × String)) (now : String) : Option (String × String) :=
  sched.foldl (scanStep now) none

/-- Ordering of schedule entries by their time string, used to embed Python's
`sorted(..., key=lambda x: x[1])`. -/
def timeLe (a b : String × String) : Prop := strLeB a.2 b.2 = true

instance : DecidableRel timeLe := fun a b => by unfold timeLe; infer_instance

instance : IsTotal (String × String) timeLe := ⟨fun a b => strLeB_total a.2 b.2⟩

instance : IsTrans (String × String) timeLe := ⟨fun a b c => strLeB_trans a.2 b.2 c.2⟩

/-- The fallback loop over tomorrow's schedule: first known entry of the list
sorted by time (`for prayer, time_str in sorted(...): if time_str != 'N/A': ... break`). -/
def earliestKnown (ts : List (String × String)) : Option (String × String) :=
  (List.insertionSort timeLe ts).find? (fun pt => decide (pt.2 ≠ "N/A"))

/-- `get_next_prayer(prayer_times, region, date_str)`: the scan, then the
tomorrow fallback, then `("N/A", "N/A")`. -/
def get_next_prayer (sched : List (String × String)) (now : String)
    (tomorrow : Option (List (String × String))) : String × String :=
  match scanNext sched now with
  | some r => r
  | none =>
    match tomorrow with
    | none => ("N/A", "N/A")
    | some ts =>
      match earliestKnown ts with
      | some r => r
      | none => ("N/A", "N/A")

theorem charListLt_irrefl : ∀ as, charListLt as as = false
  | [] => rfl
  | a :: as => by simp [charListLt, lt_irrefl, charListLt_irrefl as]

theorem strLeB_refl (a : String) : strLeB a a = true := by
  unfold strLeB strLtB
  rw [charListLt_irrefl]
  rfl

theorem strLeB_of_lt (a b : String) (h : strLtB a b = true) : strLeB a b = true := by
  unfold strLeB
  rw [strLtB_asymm a b h]
  rfl

theorem strLeB_of_not_lt (a b : String) (h : strLtB b a = false) : strLeB a b = true := by
  unfold strLeB
  rw [h]
  rfl

theorem scanStep_some (now : String) (acc : Option (String × String)) (pt b : String × String)
    (h : scanStep now acc pt = some b) :
    (b = pt ∨ acc = some b) ∧
    (isCandidateB now pt = true → strLeB b.2 pt.2 = true) ∧
    (∀ a, acc = some a → strLeB b.2 a.2 = true) ∧
    ((∀ a, acc = some a → isCandidateB now a = true) → isCandidateB now b = true) := by
  cases acc with
  | none =>
    unfold scanStep at h
    by_cases hc : isCandidateB now pt = true
    · rw [if_pos hc] at h
      replace h : some pt = some b := h
      cases h
      refine ⟨Or.inl rfl, fun _ => strLeB_refl _, ?_, fun _ => hc⟩
      intro a ha
      cases ha
    · rw [if_neg hc] at h
      cases h
  | some best =>
    unfold scanStep at h
    by_cases hc : isCandidateB now pt = true
    · rw [if_pos hc] at h
      replace h : (if strLtB pt.2 best.2 = true then some pt else some best) = some b := h
      by_cases hlt : strLtB pt.2 best.2 = true
      · rw [if_pos hlt] at h
        cases h
        refine ⟨Or.inl rfl, fun _ => strLeB_refl _, ?_, fun _ => hc⟩
        intro a ha
        cases ha
        exact strLeB_of_lt _ _ hlt
      · rw [if_neg hlt] at h
        cases h
        refine ⟨Or.inr rfl, ?_, ?_, fun hall => hall b rfl⟩
        · intro _
          exact strLeB_of_not_lt _ _ (by simpa using hlt)
        · intro a ha
          cases ha
          exact strLeB_refl _
    · rw [if_neg hc] at h
      cases h
      refine ⟨Or.inr rfl, fun hpt => absurd hpt hc, ?_, fun hall => hall b rfl⟩
      intro a ha
      cases ha
      exact strLeB_refl _

theorem scanStep_none (now : String) (acc : Option (String × String)) (pt : String × String)
    (h : scanStep now acc pt = none) :
    acc = none ∧ isCandidateB now pt = false := by
  cases acc with
  | none =>
    exact ⟨rfl, by
      unfold scanStep at h
      by_cases hc : isCandidateB now pt = true
      · rw [if_pos hc] at h
        replace h : some pt = none := h
        cases h
      · simpa using hc⟩
  | some best =>
    unfold scanStep at h
    by_cases hc : isCandidateB now pt = true
    · rw [if_pos hc] at h
      replace h : (if strLtB pt.2 best.2 = true then some pt else some best) = none := h
      by_cases hlt : strLtB pt.2 best.2 = true
      · rw [if_pos hlt] at h
        cases h
      · rw [if_neg hlt] at h
        cases h
    · rw [if_neg hc] at h
      cases h

theorem scan_go (now : String) (l : List (String × String)) : ∀ acc : Option (String × String),
    (∀ b, acc = some b → isCandidateB now b = true) →
    (∀ b, l.foldl (scanStep now) acc = some b →
       isCandidateB now b = true ∧ (b ∈ l ∨ acc = some b) ∧
       (∀ pt ∈ l, isCandidateB now pt = true → strLeB b.2 pt.2 = true) ∧
       (∀ a, acc = some a → strLeB b.2 a.2 = true)) ∧
    (l.foldl (scanStep now) acc = none →
       acc = none ∧ ∀ pt ∈ l, isCandidateB now pt = false) := by
  induction l with
  | nil =>
    intro acc hacc
    refine ⟨?_, ?_⟩
    · intro b hb
      simp only [List.foldl_nil] at hb
      refine ⟨hacc b hb, Or.inr hb, ?_, ?_⟩
      · intro pt hpt
        cases hpt
      · intro a ha
        rw [hb] at ha
        cases ha
        exact strLeB_refl _
    · intro hn
      simp only [List.foldl_nil] at hn
      refine ⟨hn, ?_⟩
      intro pt hpt
      cases hpt
  | cons pt l ih =>
    intro acc hacc
    have hacc' : ∀ b, scanStep now acc pt = some b → isCandidateB now b = true := by
      intro b hb
      exact (scanStep_some now acc pt b hb).2.2.2 hacc
    have hstep := ih (scanStep now acc pt) hacc'
    refine ⟨?_, ?_⟩
    · intro b hb
      rw [List.foldl_cons] at hb
      obtain ⟨hcand, hmem, hmin, hle⟩ := hstep.1 b hb
      refine ⟨hcand, ?_, ?_, ?_⟩
      · rcases hmem with hbl | hbacc
        · exact Or.inl (List.mem_cons_of_mem _ hbl)
        · rcases (scanStep_some now acc pt b hbacc).1 with hbpt | hback
          · exact Or.inl (hbpt ▸ List.mem_cons_self _ _)
          · exact Or.inr hback
      · intro q hq hqc
        rcases List.mem_cons.mp hq with hqpt | hql
        · subst hqpt
          cases hstepval : scanStep now acc q with
          | none =>
            have hnc := (scanStep_none now acc q hstepval).2
            rw [hqc] at hnc
            exact Bool.noConfusion hnc
          | some c =>
            have hbc := hle c hstepval
            have hcq := (scanStep_some now acc q c hstepval).2.1 hqc
            exact strLeB_trans _ _ _ hbc hcq
        · exact hmin q hql hqc
      · intro a ha
        cases hstepval : scanStep now acc pt with
        | none =>
          have hnone := (scanStep_none now acc pt hstepval).1
          rw [hnone] at ha
          cases ha
        | some c =>
          have hbc := hle c hstepval
          have hca := (scanStep_some now acc pt c hstepval).2.2.1 a ha
          exact strLeB_trans _ _ _ hbc hca
    · intro hn
      rw [List.foldl_cons] at hn
      obtain ⟨hstepn, hall⟩ := hstep.2 hn
      obtain ⟨haccn, hptn⟩ := scanStep_none now acc pt hstepn
      refine ⟨haccn, ?_⟩
      intro q hq
      rcases List.mem_cons.mp hq with hqpt | hql
      · subst hqpt
        exact hptn
      · exact hall q hql

theorem find_known_min : ∀ (l : List (String × String)),
    List.Pairwise timeLe l →
    ∀ r, l.find? (fun pt => decide (pt.2 ≠ "N/A")) = some r →
      r.2 ≠ "N/A" ∧ r ∈ l ∧ ∀ pt ∈ l, pt.2 ≠ "N/A" → strLeB r.2 pt.2 = true
  | [], _, r, h => by simp at h
  | a :: l, hp, r, h => by
    rcases List.pairwise_cons.mp hp with ⟨hrel, htail⟩
    by_cases ha : a.2 ≠ "N/A"
    · rw [List.find?_cons_of_pos _ (by simpa using ha)] at h
      cases h
      refine ⟨ha, List.mem_cons_self _ _, ?_⟩
      intro pt hpt _
      rcases List.mem_cons.mp hpt with he | hm
      · subst he
        exact strLeB_refl _
      · exact hrel pt hm
    · rw [List.find?_cons_of_neg _ (by simpa using ha)] at h
      obtain ⟨h1, h2, h3⟩ := find_known_min l htail r h
      refine ⟨h1, List.mem_cons_of_mem _ h2, ?_⟩
      intro pt hpt hptk
      rcases List.mem_cons.mp hpt with he | hm
      · subst he
        exact absurd hptk ha
      · exact h3 pt hm hptk

theorem earliestKnown_some (ts : List (String × String)) (r : String × String)
    (h : earliestKnown ts = some r) :
    r.2 ≠ "N/A" ∧ r ∈ ts ∧ ∀ pt ∈ ts, pt.2 ≠ "N/A" → strLeB r.2 pt.2 = true := by
  unfold earliestKnown at h
  have hsorted : List.Pairwise timeLe (List.insertionSort timeLe ts) :=
    List.sorted_insertionSort timeLe ts
  obtain ⟨h1, h2, h3⟩ := find_known_min _ hsorted r h
  have hperm := List.perm_insertionSort timeLe ts
  refine ⟨h1, hperm.mem_iff.mp h2, ?_⟩
  intro pt hpt hk
  exact h3 pt (hperm.mem_iff.mpr hpt) hk

theorem earliestKnown_none (ts : List (String × String)) (h : earliestKnown ts = none) :
    ∀ pt ∈ ts, pt.2 = "N/A" := by
  unfold earliestKnown at h
  intro pt hpt
  have hx := List.find?_eq_none.mp h pt ((List.perm_insertionSort timeLe ts).mem_iff.mpr hpt)
  simpa using hx

theorem scanNext_some (sched : List (String × String)) (now : String) (b : String × String)
    (h : scanNext sched now = some b) :
    isCandidateB now b = true ∧ b ∈ sched ∧
      ∀ pt ∈ sched, isCandidateB now pt = true → strLeB b.2 pt.2 = true := by
  obtain ⟨h1, h2, h3, -⟩ :=
    (scan_go now sched none (by intro c hc; cases hc)).1 b h
  rcases h2 with h2 | h2
  · exact ⟨h1, h2, h3⟩
  · cases h2

theorem scanNext_none (sched : List (String × String)) (now : String)
    (h : scanNext sched now = none) :
    ∀ pt ∈ sched, isCandidateB now pt = false :=
  ((scan_go now sched none (by intro c hc; cases hc)).2 h).2

/-- The spec's end-to-end example schedule (region "27", 2025-03-15). -/
def exampleSched : List (String × String) :=
  [("Bomdod", "05:24"), ("Quyosh", "06:42"), ("Peshin", "12:23"),
   ("Asr", "16:20"), ("Shom", "18:07"), ("Xufton", "19:22")]

/-- C2: `get_next_prayer` returns the entry with the minimal known (non-"N/A")
time strictly greater than `now` under lexical "HH:MM" comparison; when no
candidate exists (all of today's prayers passed, or today entirely unknown) it
returns the earliest known prayer of tomorrow's cached schedule, and
`("N/A", "N/A")` without raising when tomorrow is not cached or has no known
time; in particular on the spec's end-to-end schedule at `now = "17:00"` it
returns `("Shom", "18:07")`. -/
theorem c2_next_prayer_resolution (sched : List (String × String)) (now : String)
    (tomorrow : Option (List (String × String))) :
    ((∃ pt ∈ sched, isCandidateB now pt = true) →
       get_next_prayer sched now tomorrow ∈ sched ∧
       isCandidateB now (get_next_prayer sched now tomorrow) = true ∧
       ∀ pt ∈ sched, isCandidateB now pt = true →
         strLeB (get_next_prayer sched now tomorrow).2 pt.2 = true) ∧
    ((∀ pt ∈ sched, isCandidateB now pt = false) → tomorrow = none →
       get_next_prayer sched now tomorrow = ("N/A", "N/A")) ∧
    (∀ ts, (∀ pt ∈ sched, isCandidateB now pt = false) → tomorrow = some ts →
       ((∃ pt ∈ ts, pt.2 ≠ "N/A") →
          get_next_prayer sched now tomorrow ∈ ts ∧
          (get_next_prayer sched now tomorrow).2 ≠ "N/A" ∧
          ∀ pt ∈ ts, pt.2 ≠ "N/A" →
            strLeB (get_next_prayer sched now tomorrow).2 pt.2 = true) ∧
       ((∀ pt ∈ ts, pt.2 = "N/A") →
          get_next_prayer sched now tomorrow = ("N/A", "N/A"))) ∧
    get_next_prayer exampleSched "17:00" none = ("Shom", "18:07") := by
  refine ⟨?_, ?_, ?_, by decide⟩
  · rintro ⟨w, hw, hwc⟩
    cases hscan : scanNext sched now with
    | none =>
      have hfalse := scanNext_none sched now hscan w hw
      rw [hwc] at hfalse
      exact Bool.noConfusion hfalse
    | some b =>
      obtain ⟨h1, h2, h3⟩ := scanNext_some sched now b hscan
      have hres : get_next_prayer sched now tomorrow = b := by
        unfold get_next_prayer
        rw [hscan]
      rw [hres]
      exact ⟨h2, h1, h3⟩
  · intro hall htom
    cases hscan : scanNext sched now with
    | some b =>
      obtain ⟨h1, h2, -⟩ := scanNext_some sched now b hscan
      have hfalse := hall b h2
      rw [h1] at hfalse
      exact Bool.noConfusion hfalse
    | none =>
      subst htom
      unfold get_next_prayer
      rw [hscan]
  · intro ts hall htom
    cases hscan : scanNext sched now with
    | some b =>
      obtain ⟨h1, h2, -⟩ := scanNext_some sched now b hscan
      have hfalse := hall b h2
      rw [h1] at hfalse
      exact Bool.noConfusion hfalse
    | none =>
      subst htom
      refine ⟨?_, ?_⟩
      · rintro ⟨w, hw, hwk⟩
        cases hek : earliestKnown ts with
        | none => exact absurd (earliestKnown_none ts hek w hw) hwk
        | some r =>
          obtain ⟨h1, h2, h3⟩ := earliestKnown_some ts r hek
          have hres : get_next_prayer sched now (some ts) = r := by
            unfold get_next_prayer
            rw [hscan]
            dsimp only
            rw [hek]
          rw [hres]
          exact ⟨h2, h1, h3⟩
      · intro hallna
        cases hek : earliestKnown ts with
        | some r =>
          obtain ⟨h1, h2, -⟩ := earliestKnown_some ts r hek
          exact absurd (hallna r h2) h1
        | none =>
          unfold get_next_prayer
          rw [hscan]
          dsimp only
          rw [hek]

/-- C2 witness: the end-to-end schedule at `now = "17:00"`: the candidate-exists
branch applies with candidate `("Shom", "18:07")`, so the returned pair is a
member of the schedule and a strict-future known candidate. -/
theorem c2_next_prayer_resolution_witness :
    get_next_prayer exampleSched "17:00" none ∈ exampleSched ∧
    isCandidateB "17:00" (get_next_prayer exampleSched "17:00" none) = true :=
  ⟨((c2_next_prayer_resolution exampleSched "17:00" none).1
      ⟨("Shom", "18:07"), by decide, by decide⟩).1,
   ((c2_next_prayer_resolution exampleSched "17:00" none).1
      ⟨("Shom", "18:07"), by decide, by decide⟩).2.1⟩

/-! ## Closest-prayer highlight (`_update_message_task`, `send_main_message`)

The source computes, for every known entry,
`time_diff = prayer_minutes - current_minutes` from the "HH:MM" strings and
keeps the entry whenever
`min_time_diff is None or (time_diff <= 0 and (min_time_diff > 0 or
time_diff > min_time_diff)) or (time_diff > 0 and time_diff < min_time_diff)`.
`int(s.split(':')[0]) * 60 + int(s.split(':')[1])` is embedded by an explicit
split on `':'` over the character list and a decimal fold (the inputs are the
source's zero-padded digit strings). -/

/-- Python `s.split(':')` on the character list, accumulating the current chunk. -/
def splitOnColon : List Char → List Char → List (List Char)
  | [], cur => [cur.reverse]
  | c :: cs, cur =>
    if c = ':' then cur.reverse :: splitOnColon cs [] else splitOnColon cs (c :: cur)

/-- Python `int(...)` on a zero-padded digit chunk. -/
def pyIntD (cs : List Char) : Nat :=
  cs.foldl (fun acc c => acc * 10 + (c.toNat - Char.toNat '0')) 0

/-- Python `int(time_str.split(':')[0]) * 60 + int(time_str.split(':')[1])`. -/
def clockMinutes (s : String) : Int :=
  match splitOnColon s.data [] with
  | h :: m :: _ => (pyIntD h : Int) * 60 + (pyIntD m : Int)
  | _ => 0

/-- Python `time_diff = prayer_minutes - current_minutes` for one entry. -/
def time_diff (now : String) (pt : String × String) : Int :=
  clockMinutes pt.2 - clockMinutes now

/-- One iteration of the closest-prayer loop, with the source's literal
update condition. -/
def closestStep (now : String) (acc : Option (String × Int)) (pt : String × String) :
    Option (String × Int) :=
  if pt.2 = "N/A" then acc
  else
    match acc with
    | none => some (pt.1, time_diff now pt)
    | some (cp, md) =>
      if (time_diff now pt ≤ 0 ∧ (0 < md ∨ md < time_diff now pt)) ∨
          (0 < time_diff now pt ∧ time_diff now pt < md) then
        some (pt.1, time_diff now pt)
      else some (cp, md)

/-- The whole closest-prayer loop: final `(closest_prayer, min_time_diff)`. -/
def closestScan (pts : List (String × String)) (now : String) : Option (String × Int) :=
  pts.foldl (closestStep now) none

/-- The `closest_prayer` value used for the visual highlight. -/
def closestPrayer (pts : List (String × String)) (now : String) : Option String :=
  (closestScan pts now).map Prod.fst

/-- Modelled from the spec's words, for comparison with `closestStep`:
"the prayer whose time has the smallest signed distance to now, preferring an
already-passed prayer over a future one at equal magnitude (tie-break:
non-positive difference wins)" — i.e. minimize the absolute difference, with
the stated tie-break. -/
def closestStep_spec (now : String) (acc : Option (String × Int)) (pt : String × String) :
    Option (String × Int) :=
  if pt.2 = "N/A" then acc
  else
    match acc with
    | none => some (pt.1, time_diff now pt)
    | some (cp, md) =>
      if (time_diff now pt).natAbs < md.natAbs ∨
          ((time_diff now pt).natAbs = md.natAbs ∧ time_diff now pt ≤ 0 ∧ 0 < md) then
        some (pt.1, time_diff now pt)
      else some (cp, md)

/-- The spec-worded selection, folded over the schedule like the source's loop. -/
def closestPrayer_spec (pts : List (String × String)) (now : String) : Option String :=
  (pts.foldl (closestStep_spec now) none).map Prod.fst

theorem closestStep_none (now : String) (acc : Option (String × Int)) (pt : String × String)
    (h : closestStep now acc pt = none) : acc = none ∧ pt.2 = "N/A" := by
  unfold closestStep at h
  by_cases hna : pt.2 = "N/A"
  · rw [if_pos hna] at h
    exact ⟨h, hna⟩
  · rw [if_neg hna] at h
    cases acc with
    | none =>
      replace h : some (pt.1, time_diff now pt) = none := h
      cases h
    | some cpmd =>
      obtain ⟨cp, md⟩ := cpmd
      replace h : (if (time_diff now pt ≤ 0 ∧ (0 < md ∨ md < time_diff now pt)) ∨
          (0 < time_diff now pt ∧ time_diff now pt < md) then
        some (pt.1, time_diff now pt)
      else some (cp, md)) = none := h
      by_cases hC : (time_diff now pt ≤ 0 ∧ (0 < md ∨ md < time_diff now pt)) ∨
          (0 < time_diff now pt ∧ time_diff now pt < md)
      · rw [if_pos hC] at h
        cases h
      · rw [if_neg hC] at h
        cases h

theorem closestStep_some (now : String) (acc : Option (String × Int)) (pt : String × String)
    (q : String) (e : Int) (h : closestStep now acc pt = some (q, e)) :
    ((pt.2 ≠ "N/A" ∧ pt.1 = q ∧ time_diff now pt = e) ∨ acc = some (q, e)) ∧
    (pt.2 ≠ "N/A" →
       (time_diff now pt ≤ 0 → e ≤ 0 ∧ time_diff now pt ≤ e) ∧
       (0 < e → 0 < time_diff now pt ∧ e ≤ time_diff now pt)) ∧
    (∀ a f, acc = some (a, f) → (f ≤ 0 → e ≤ 0 ∧ f ≤ e) ∧ (0 < e → 0 < f ∧ e ≤ f)) := by
  unfold closestStep at h
  by_cases hna : pt.2 = "N/A"
  · rw [if_pos hna] at h
    refine ⟨Or.inr h, fun hk => absurd hna hk, ?_⟩
    intro a f haf
    rw [haf] at h
    cases h
    exact ⟨fun h0 => ⟨h0, le_refl _⟩, fun h0 => ⟨h0, le_refl _⟩⟩
  · rw [if_neg hna] at h
    cases acc with
    | none =>
      replace h : some (pt.1, time_diff now pt) = some (q, e) := h
      cases h
      refine ⟨Or.inl ⟨hna, rfl, rfl⟩, ?_, ?_⟩
      · intro _
        exact ⟨fun h0 => ⟨h0, le_refl _⟩, fun h0 => ⟨h0, le_refl _⟩⟩
      · intro a f haf
        cases haf
    | some cpmd =>
      obtain ⟨cp, md⟩ := cpmd
      replace h : (if (time_diff now pt ≤ 0 ∧ (0 < md ∨ md < time_diff now pt)) ∨
          (0 < time_diff now pt ∧ time_diff now pt < md) then
        some (pt.1, time_diff now pt)
      else some (cp, md)) = some (q, e) := h
      by_cases hC : (time_diff now pt ≤ 0 ∧ (0 < md ∨ md < time_diff now pt)) ∨
          (0 < time_diff now pt ∧ time_diff now pt < md)
      · rw [if_pos hC] at h
        cases h
        refine ⟨Or.inl ⟨hna, rfl, rfl⟩, ?_, ?_⟩
        · intro _
          exact ⟨fun h0 => ⟨h0, le_refl _⟩, fun h0 => ⟨h0, le_refl _⟩⟩
        · intro a f haf
          cases haf
          constructor
          · intro hf0
            omega
          · intro he0
            omega
      · rw [if_neg hC] at h
        cases h
        refine ⟨Or.inr rfl, ?_, ?_⟩
        · intro _
          constructor
          · intro hd0
            omega
          · intro he0
            omega
        · intro a f haf
          cases haf
          exact ⟨fun h0 => ⟨h0, le_refl _⟩, fun h0 => ⟨h0, le_refl _⟩⟩

theorem closest_go (now : String) (l : List (String × String)) :
    ∀ acc : Option (String × Int),
    (l.foldl (closestStep now) acc = none → acc = none ∧ ∀ pt ∈ l, pt.2 = "N/A") ∧
    (∀ q e, l.foldl (closestStep now) acc = some (q, e) →
       ((∃ pt ∈ l, pt.2 ≠ "N/A" ∧ pt.1 = q ∧ time_diff now pt = e) ∨ acc = some (q, e)) ∧
       (∀ pt ∈ l, pt.2 ≠ "N/A" →
          (time_diff now pt ≤ 0 → e ≤ 0 ∧ time_diff now pt ≤ e) ∧
          (0 < e → 0 < time_diff now pt ∧ e ≤ time_diff now pt)) ∧
       (∀ a f, acc = some (a, f) → (f ≤ 0 → e ≤ 0 ∧ f ≤ e) ∧ (0 < e → 0 < f ∧ e ≤ f))) := by
  induction l with
  | nil =>
    intro acc
    refine ⟨?_, ?_⟩
    · intro hn
      simp only [List.foldl_nil] at hn
      refine ⟨hn, ?_⟩
      intro pt hpt
      cases hpt
    · intro q e hb
      simp only [List.foldl_nil] at hb
      refine ⟨Or.inr hb, ?_, ?_⟩
      · intro pt hpt
        cases hpt
      · intro a f haf
        rw [hb] at haf
        cases haf
        exact ⟨fun h0 => ⟨h0, le_refl _⟩, fun h0 => ⟨h0, le_refl _⟩⟩
  | cons pt l ih =>
    intro acc
    have hstep := ih (closestStep now acc pt)
    refine ⟨?_, ?_⟩
    · intro hn
      rw [List.foldl_cons] at hn
      obtain ⟨hstepn, hall⟩ := hstep.1 hn
      obtain ⟨haccn, hptna⟩ := closestStep_none now acc pt hstepn
      refine ⟨haccn, ?_⟩
      intro q hq
      rcases List.mem_cons.mp hq with hqpt | hql
      · subst hqpt
        exact hptna
      · exact hall q hql
    · intro q e hb
      rw [List.foldl_cons] at hb
      obtain ⟨hsrc, hdom, hacc⟩ := hstep.2 q e hb
      refine ⟨?_, ?_, ?_⟩
      · rcases hsrc with ⟨w, hw, hprop⟩ | hstepsome
        · exact Or.inl ⟨w, List.mem_cons_of_mem _ hw, hprop⟩
        · rcases (closestStep_some now acc pt q e hstepsome).1 with hfrompt | hfromacc
          · exact Or.inl ⟨pt, List.mem_cons_self _ _, hfrompt⟩
          · exact Or.inr hfromacc
      · intro w hw hwk
        rcases List.mem_cons.mp hw with hwpt | hwl
        · subst hwpt
          cases hstepval : closestStep now acc w with
          | none =>
            exact absurd (closestStep_none now acc w hstepval).2 hwk
          | some cg =>
            obtain ⟨c, g⟩ := cg
            have hsd := (closestStep_some now acc w c g hstepval).2.1 hwk
            have hag := hacc c g hstepval
            constructor
            · intro hd0
              obtain ⟨hg0, hdg⟩ := hsd.1 hd0
              obtain ⟨he0, hge⟩ := hag.1 hg0
              exact ⟨he0, le_trans hdg hge⟩
            · intro he0
              obtain ⟨hg0, heg⟩ := hag.2 he0
              obtain ⟨hd0, hgd⟩ := hsd.2 hg0
              exact ⟨hd0, le_trans heg hgd⟩
        · exact hdom w hwl hwk
      · intro a f haf
        cases hstepval : closestStep now acc pt with
        | none =>
          rw [(closestStep_none now acc pt hstepval).1] at haf
          cases haf
        | some cg =>
          obtain ⟨c, g⟩ := cg
          have hsd := (closestStep_some now acc pt c g hstepval).2.2 a f haf
          have hag := hacc c g hstepval
          constructor
          · intro hf0
            obtain ⟨hg0, hfg⟩ := hsd.1 hf0
            obtain ⟨he0, hge⟩ := hag.1 hg0
            exact ⟨he0, le_trans hfg hge⟩
          · intro he0
            obtain ⟨hg0, heg⟩ := hag.2 he0
            obtain ⟨hf0, hgf⟩ := hsd.2 hg0
            exact ⟨hf0, le_trans heg hgf⟩

/-- C8 counterexample: at `now = 12:00` with Bomdod 05:00 (passed 420 minutes
ago), Quyosh 06:40 (passed 320 minutes ago) and Peshin 12:05 (5 minutes ahead),
the source highlights Quyosh — the most recently passed prayer — while the
claimed smallest-absolute-distance rule selects Peshin. -/
theorem c8_counterexample :
    closestPrayer [("Bomdod", "05:00"), ("Quyosh", "06:40"), ("Peshin", "12:05")] "12:00" =
      some "Quyosh" ∧
    closestPrayer_spec [("Bomdod", "05:00"), ("Quyosh", "06:40"), ("Peshin", "12:05")] "12:00" =
      some "Peshin" ∧
    closestPrayer [("Bomdod", "05:00"), ("Quyosh", "06:40"), ("Peshin", "12:05")] "12:00" ≠
      closestPrayer_spec [("Bomdod", "05:00"), ("Quyosh", "06:40"), ("Peshin", "12:05")] "12:00" := by
  refine ⟨by decide, by decide, by decide⟩

/-- C8 (amended): the highlight loop does not minimize the absolute distance:
it always prefers already-passed prayers.  Precisely, the selected entry is a
known schedule entry whose signed difference `d` satisfies: whenever any known
entry has a non-positive difference, `d` is non-positive and is the greatest
non-positive difference (most recently passed prayer); only when every known
difference is positive is `d` the smallest positive difference.  At equal
magnitude across the two signs the non-positive entry therefore wins, as the
claim states; the selection feeds only the visual highlight, not the countdown.
The scan returns nothing exactly when every entry is unknown. -/
theorem c8_closest_characterization (pts : List (String × String)) (now : String) :
    (closestScan pts now = none → ∀ pt ∈ pts, pt.2 = "N/A") ∧
    (∀ q e, closestScan pts now = some (q, e) →
       closestPrayer pts now = some q ∧
       (∃ pt ∈ pts, pt.2 ≠ "N/A" ∧ pt.1 = q ∧ time_diff now pt = e) ∧
       (∀ pt ∈ pts, pt.2 ≠ "N/A" →
          (time_diff now pt ≤ 0 → e ≤ 0 ∧ time_diff now pt ≤ e) ∧
          (0 < e → 0 < time_diff now pt ∧ e ≤ time_diff now pt))) := by
  have hgo := closest_go now pts none
  refine ⟨fun hn => (hgo.1 hn).2, ?_⟩
  intro q e hb
  obtain ⟨hsrc, hdom, -⟩ := hgo.2 q e hb
  rcases hsrc with hsrc | hsrc
  · refine ⟨?_, hsrc, hdom⟩
    unfold closestPrayer
    rw [hb]
    rfl
  · cases hsrc

/-- C8 witness: on the two-entry schedule Bomdod 05:00 / Peshin 12:05 at
`now = 12:00` the scan returns `("Bomdod", -420)`; the theorem applied there
yields the membership witness and the non-positive dominance facts. -/
theorem c8_closest_characterization_witness :
    closestPrayer [("Bomdod", "05:00"), ("Peshin", "12:05")] "12:00" = some "Bomdod" ∧
    (∃ pt ∈ [("Bomdod", "05:00"), ("Peshin", "12:05")],
       pt.2 ≠ "N/A" ∧ pt.1 = "Bomdod" ∧ time_diff "12:00" pt = -420) :=
  ⟨((c8_closest_characterization [("Bomdod", "05:00"), ("Peshin", "12:05")] "12:00").2
      "Bomdod" (-420) (by decide)).1,
   ((c8_closest_characterization [("Bomdod", "05:00"), ("Peshin", "12:05")] "12:00").2
      "Bomdod" (-420) (by decide)).2.1⟩

/-! ## Batch ingestion (`save_monthly_prayer_times`, `src/scraping/prayer_times.py`)

The function loops over `data.items()`, computes
`date_str = f"{year}-{month:02d}-{int(day):02d}"`, issues one
`INSERT OR REPLACE` per day, and calls `db.commit()` once after the loop.  The
whole loop sits inside a single `try`; any exception (for instance `int(day)`
raising `ValueError` on a malformed key) jumps to the handler, which only logs
— the commit is skipped and the rolled-back connection leaves the table
unchanged. -/

/-- Python `f"{year}-{month:02d}-{int(day):02d}"`. -/
def dateKey (year month day : Nat) : String :=
  toString year ++ "-" ++ pad2 month ++ "-" ++ pad2 day

/-- Python `int(day)` on the scraped day keys: a non-empty all-digit string
parses; `none` embeds the `ValueError` raised otherwise. -/
def pyIntOpt (s : String) : Option Nat :=
  if s.data ≠ [] ∧ s.data.all Char.isDigit then some (pyIntD s.data) else none

/-- The per-day loop body of `save_monthly_prayer_times`: `none` embeds an
exception escaping the loop. -/
def saveDaysLoop (region : String) (year month : Nat) :
    PTTable → List (String × String) → Option PTTable
  | t, [] => some t
  | t, (day, payload) :: rest =>
    match pyIntOpt day with
    | none => none
    | some d =>
      saveDaysLoop region year month (upsertPT (region, dateKey year month d) payload t) rest

/-- `save_monthly_prayer_times`: run the loop; on success commit (the new
table), on an exception log and fall through — no commit, table unchanged. -/
def save_monthly_prayer_times (t : PTTable) (region : String) (year month : Nat)
    (data : List (String × String)) : PTTable :=
  match saveDaysLoop region year month t data with
  | some t2 => t2
  | none => t

theorem saveDaysLoop_all_some (region : String) (year month : Nat) :
    ∀ (data : List (String × String)) (t : PTTable),
    (∀ dp ∈ data, (pyIntOpt dp.1).isSome = true) →
    saveDaysLoop region year month t data =
      some (data.foldl (fun acc dp =>
        upsertPT (region, dateKey year month ((pyIntOpt dp.1).getD 0)) dp.2 acc) t)
  | [], t, _ => rfl
  | (day, payload) :: rest, t, hall => by
    have hh := hall (day, payload) (List.mem_cons_self _ _)
    cases hdp : pyIntOpt day with
    | none =>
      rw [show pyIntOpt (day, payload).1 = none from hdp] at hh
      cases hh
    | some d =>
      unfold saveDaysLoop
      rw [hdp]
      dsimp only
      rw [List.foldl_cons]
      rw [show pyIntOpt (day, payload).1 = some d from hdp]
      exact saveDaysLoop_all_some region year month rest _
        (fun dp hm => hall dp (List.mem_cons_of_mem _ hm))

theorem saveDaysLoop_fail (region : String) (year month : Nat) :
    ∀ (data : List (String × String)) (t : PTTable),
    (∃ dp ∈ data, pyIntOpt dp.1 = none) →
    saveDaysLoop region year month t data = none
  | [], _, h => by
    rcases h with ⟨dp, hdp, -⟩
    cases hdp
  | (day, payload) :: rest, t, h => by
    cases hdp : pyIntOpt day with
    | none =>
      unfold saveDaysLoop
      rw [hdp]
    | some d =>
      unfold saveDaysLoop
      rw [hdp]
      dsimp only
      apply saveDaysLoop_fail region year month rest
      rcases h with ⟨dp, hmem, hnone⟩
      rcases List.mem_cons.mp hmem with he | hm
      · have hcontra : pyIntOpt day = none := by
          rw [he] at hnone
          exact hnone
        rw [hdp] at hcontra
        cases hcontra
      · exact ⟨dp, hm, hnone⟩

/-- C7 counterexample: a batch whose second day key fails `int()` — the third
(well-formed) day's row is NOT persisted, and neither is the first: the single
`try` aborts the loop and the commit, leaving the table empty. -/
theorem c7_counterexample :
    save_monthly_prayer_times [] "27" 2025 3 [("1", "a"), ("x", "b"), ("3", "c")] = [] ∧
    lookupPT ("27", "2025-03-03")
      (save_monthly_prayer_times [] "27" 2025 3 [("1", "a"), ("x", "b"), ("3", "c")]) = none ∧
    lookupPT ("27", "2025-03-01")
      (save_monthly_prayer_times [] "27" 2025 3 [("1", "a"), ("x", "b"), ("3", "c")]) = none :=
  ⟨rfl, rfl, rfl⟩

/-- C7 (amended): batch ingestion performs one upsert per day only when every
day record is well-formed, in which case the committed table is exactly the
fold of the per-day upserts; a failure affecting any one day's record aborts
the remainder and skips the commit, so no row of the batch — not even the
well-formed days' rows — is persisted.  The batch is all-or-nothing, not
best-effort per-day. -/
theorem c7_batch_characterization (t : PTTable) (region : String) (year month : Nat)
    (data : List (String × String)) :
    ((∀ dp ∈ data, (pyIntOpt dp.1).isSome = true) →
       save_monthly_prayer_times t region year month data =
         data.foldl (fun acc dp =>
           upsertPT (region, dateKey year month ((pyIntOpt dp.1).getD 0)) dp.2 acc) t) ∧
    ((∃ dp ∈ data, pyIntOpt dp.1 = none) →
       save_monthly_prayer_times t region year month data = t) := by
  constructor
  · intro hall
    unfold save_monthly_prayer_times
    rw [saveDaysLoop_all_some region year month data t hall]
  · intro hex
    unfold save_monthly_prayer_times
    rw [saveDaysLoop_fail region year month data t hex]

/-- C7 witness: a fully well-formed two-day batch commits both upserts; a batch
with a malformed key commits nothing. -/
theorem c7_batch_characterization_witness :
    save_monthly_prayer_times [] "27" 2025 3 [("1", "a"), ("2", "b")] =
      upsertPT ("27", "2025-03-02") "b" (upsertPT ("27", "2025-03-01") "a" []) ∧
    save_monthly_prayer_times [] "27" 2025 3 [("1", "a"), ("x", "b")] = [] := by
  constructor
  · rw [(c7_batch_characterization [] "27" 2025 3 [("1", "a"), ("2", "b")]).1 (by decide)]
    rfl
  · exact (c7_batch_characterization [] "27" 2025 3 [("1", "a"), ("x", "b")]).2
      ⟨("x", "b"), by decide, by decide⟩

/-! ## Source Adapter retries (`scrape_prayer_times`, `src/scraping/prayer_times.py`)

The function is decorated
`@retry(stop=stop_after_attempt(3), wait=wait_exponential(...),
retry=retry_if_exception_type(aiohttp.ClientError))`: tenacity re-invokes the
body only when a call RAISES an `aiohttp.ClientError`, up to 3 attempts.  The
body, however, wraps everything in `try`/`except`: parse-shape failures
(`len(headers) < 9`, missing row, `len(cells) < 9`) `return None` directly,
`except aiohttp.ClientError` returns `None`, and `except Exception` returns
`None` — so no exception ever escapes to the decorator. -/

/-- What the external world does on one fetch attempt. -/
inductive AttemptOutcome where
  | page (sched : List (String × String))
  | badShape
  | transportErr
  | otherErr

/-- Python exception classes relevant to the retry predicate. -/
inductive PyErr where
  | clientError
  | otherError

/-- One execution of the decorated function's body: `Except.error` would be an
exception escaping to tenacity; every branch of the source's handlers returns
normally (`.ok`), converting failures to `None`. -/
def scrapeAttempt (env : Nat → AttemptOutcome) (i : Nat) :
    Except PyErr (Option (List (String × String))) :=
  match env i with
  | .page sched => .ok (some sched)
  | .badShape => .ok none
  | .transportErr => .ok none
  | .otherErr => .ok none

/-- Tenacity's driver: call the body; a normal return is final; a raised
`aiohttp.ClientError` is retried while attempts remain
(`stop_after_attempt(3)`), any other exception propagates.  Returns the number
of attempts made and the final outcome. -/
def tenacityRetry (body : Nat → Except PyErr (Option (List (String × String)))) :
    Nat → Nat → Nat × Except PyErr (Option (List (String × String)))
  | i, 0 => (i, .error .otherError)
  | i, fuel + 1 =>
    match body i with
    | .ok v => (i + 1, .ok v)
    | .error e =>
      if fuel = 0 then (i + 1, .error e)
      else
        match e with
        | .clientError => tenacityRetry body (i + 1) fuel
        | .otherError => (i + 1, .error e)

/-- The decorated `scrape_prayer_times` as invoked by callers: up to 3 attempts. -/
def scrape_prayer_times (env : Nat → AttemptOutcome) :
    Nat × Except PyErr (Option (List (String × String))) :=
  tenacityRetry (scrapeAttempt env) 0 3

/-- C6: evaluating the source at the failing input.  Against an environment
whose transport layer raises `aiohttp.ClientError` on every attempt, the body
swallows the exception and returns `None` on the FIRST attempt — tenacity never
sees an exception, so no retry and no backoff happen (1 attempt, not 3).
A parse-shape failure likewise returns `None` immediately (this half agrees
with the claim); the two failure modes are indistinguishable to the retry
machinery. -/
theorem c6_transport_error_single_attempt :
    scrape_prayer_times (fun _ => AttemptOutcome.transportErr) = (1, Except.ok none) ∧
    scrape_prayer_times (fun _ => AttemptOutcome.badShape) = (1, Except.ok none) ∧
    (1 : Nat) ≠ 3 :=
  ⟨rfl, rfl, by decide⟩

/-! ## Message rendering and the edit decision (`_update_message_task`)

Lines 260–288 of `reminders.py` build `message_text` from location, date,
Islamic date, the iftar/countdown line, one line per prayer (with the
closest-prayer highlight) and the next-prayer countdown tail, then — `if not
reminder_triggered` — call `bot.edit_message_text(...)` with that text.
`compute_content_hash` and `get_message_hash` exist in
`src/database/database.py` but are never called by the loop. -/

/-- `compute_content_hash(text, reply_markup)`: `md5(text + markup_str)`.  The
MD5 digest is embedded as the digested content itself; the claims depend only
on the hash being a deterministic function of the content. -/
def compute_content_hash (text markupStr : String) : String :=
  text ++ markupStr

/-- The `PRAYER_EMOJIS` table of `reminders.py`. -/
def PRAYER_EMOJIS : List (String × String) :=
  [("Bomdod", "🌅"), ("Quyosh", "☀️"), ("Peshin", "🌞"),
   ("Asr", "🌆"), ("Shom", "🌙"), ("Xufton", "⭐")]

/-- Python `PRAYER_EMOJIS.get(prayer, '⏰')`. -/
def emojiFor (prayer : String) : String :=
  match PRAYER_EMOJIS.find? (fun e => decide (e.1 = prayer)) with
  | some e => e.2
  | none => "⏰"

/-- One prayer line:
`f"{emoji} {prayer}: {highlight}{time_str}{highlight}{tick}\n"` with
`highlight = "**"` and `tick = " ✅"` exactly on the closest prayer. -/
def prayerLine (closest : Option String) (pt : String × String) : String :=
  emojiFor pt.1 ++ " " ++ pt.1 ++ ": " ++
    (if some pt.1 = closest then "**" else "") ++ pt.2 ++
    (if some pt.1 = closest then "**" else "") ++
    (if some pt.1 = closest then " ✅" else "") ++ "\n"

/-- The `"------------------------\n"` separator. -/
def sepLine : String := "------------------------\n"

/-- The full `message_text` built by the tick. -/
def buildMessageText (location dateStr islamicDate iftarText : String)
    (pts : List (String × String)) (closest : Option String)
    (nextPrayer nextPrayerTime countdown : String) : String :=
  "📍 " ++ location ++ "\n🗓 " ++ dateStr ++ "\n☪️ " ++ islamicDate ++ "\n" ++
    sepLine ++ iftarText ++ " ⏰\n" ++ sepLine ++
    pts.foldl (fun acc pt => acc ++ prayerLine closest pt) "" ++ sepLine ++
    (if nextPrayer ≠ "N/A" ∧ nextPrayerTime ≠ "N/A" then
      nextPrayer ++ " gacha\n- " ++ countdown ++ " ⏰ qoldi"
    else "")

/-- The state a refresh tick renders from (the `message_cache` entry plus the
values derived earlier in the tick). -/
structure TickView where
  location : String
  dateStr : String
  islamicDate : String
  iftarText : String
  prayerTimes : List (String × String)
  currentTime : String
  nextPrayer : String
  nextPrayerTime : String
  countdown : String

/-- The tick's recomputed render text, including the closest-prayer highlight. -/
def renderTick (v : TickView) : String :=
  buildMessageText v.location v.dateStr v.islamicDate v.iftarText v.prayerTimes
    (closestPrayer v.prayerTimes v.currentTime) v.nextPrayer v.nextPrayerTime v.countdown

/-- The tick's outbound edit (lines 281–288 of `reminders.py`): when no
reminder fired, the tick unconditionally calls `bot.edit_message_text` with
the recomputed text; no hash is computed or compared anywhere in the loop. -/
def tickEdit (reminderFired : Bool) (v : TickView) : Option String :=
  if reminderFired then none else some (renderTick v)

/-- Modelled from the spec's words, for comparison with `tickEdit`: the loop
"recomputes the render text, hashes it, compares against the last stored hash
for that exact message, and — only on mismatch — issues an edit". -/
def editRequired_spec (storedHash newText : String) : Bool :=
  decide (compute_content_hash newText "" ≠ storedHash)

/-- A concrete tick state: the end-to-end example schedule at 17:00. -/
def c1ExampleView : TickView where
  location := "Toshkent"
  dateStr := "Shanba, 15-Mart"
  islamicDate := "15 Ramazon, 1446"
  iftarText := "Keyingi namozgacha - 1:07 qoldi"
  prayerTimes := [("Bomdod", "05:24"), ("Quyosh", "06:42"), ("Peshin", "12:23"),
    ("Asr", "16:20"), ("Shom", "18:07"), ("Xufton", "19:22")]
  currentTime := "17:00"
  nextPrayer := "Shom"
  nextPrayerTime := "18:07"
  countdown := "1:07"

/-- C1 counterexample: a tick whose recomputed text hashes to exactly the
stored hash (an unchanged render) still issues the edit call, although the
spec-worded decision says a hash match must be a no-op. -/
theorem c1_counterexample :
    tickEdit false c1ExampleView = some (renderTick c1ExampleView) ∧
    editRequired_spec (compute_content_hash (renderTick c1ExampleView) "")
      (renderTick c1ExampleView) = false :=
  ⟨rfl, by
    unfold editRequired_spec
    simp⟩

/-- C1 (amended): the freshness loop makes no hash comparison at all: on every
tick where no reminder fires it issues an edit call with the recomputed render
text, even when that text's content hash equals the stored hash for the
message.  Rendering is a pure function of the tick state, so rendering the
same schedule/next-prayer state twice does produce the same hash — that half
of the claim is inherent — but the "no edit on hash match" half has no
counterpart in the source. -/
theorem c1_edit_unconditional (v : TickView) (storedHash : String)
    (h : compute_content_hash (renderTick v) "" = storedHash) :
    tickEdit false v = some (renderTick v) ∧
    compute_content_hash (renderTick v) "" = compute_content_hash (renderTick v) "" :=
  ⟨rfl, rfl⟩

/-- C1 witness: the concrete tick state, with the stored hash instantiated to
the recomputed text's own hash, still gets an edit issued. -/
theorem c1_edit_unconditional_witness :
    tickEdit false c1ExampleView = some (renderTick c1ExampleView) :=
  (c1_edit_unconditional c1ExampleView
    (compute_content_hash (renderTick c1ExampleView) "") rfl).1
